import Mathlib

/-!
Verification development for the manjaro-kernel-bundler repository.

The Python sources (`manjaro_kernel_bundler/{util,db,bundle,__init__}.py`)
are shallowly embedded below.  Python strings that the code inspects
character by character are modelled as `List Char`; plain opaque paths are
modelled as `String`.  The filesystem is modelled as an explicit state
(`FS`): a list of regular files with content and modification time, plus a
list of directories.  Fallible Python code (raised exceptions) is modelled
with `Except`.  External programs (objcopy, sbsign, file) are modelled by
an oracle record `World`.  Line references in comments point into the
Python sources.
-/

namespace MKB

/-! ## Python string primitives (`str.splitlines`, `str.split`, `str.strip`)

The code only ever feeds text using `'\n'` line terminators to
`splitlines`, so the model treats `'\n'` as the line separator. -/

/-- Python `str.splitlines` (for `'\n'`-separated text): no trailing empty
line is produced for text ending in a newline, and empty input gives no
lines. -/
def pySplitlines : List Char → List (List Char)
  | [] => []
  | c :: s =>
    if c = '\n' then [] :: pySplitlines s
    else
      match pySplitlines s with
      | [] => [[c]]
      | l :: ls => (c :: l) :: ls

/-- Python `str.split(sep)` for a one-character separator `c`:
`"".split(c) = [""]`, and every occurrence of `c` starts a new field. -/
def splitOnChar (c : Char) : List Char → List (List Char)
  | [] => [[]]
  | x :: xs =>
    let r := splitOnChar c xs
    if x = c then [] :: r
    else (x :: r.headI) :: r.tail

/-- Python whitespace characters stripped by `str.strip()` (ASCII range). -/
def isPyWS (c : Char) : Bool :=
  c = ' ' || c = '\t' || c = '\n' || c = '\r' || c = '\x0b' || c = '\x0c'

/-- Python `str.strip()`: drop whitespace from both ends. -/
def pyStrip (s : List Char) : List Char :=
  ((s.dropWhile isPyWS).reverse.dropWhile isPyWS).reverse

/-! ## `util.envfile_to_params` (util.py lines 16-35) -/

/-- The quote-stripping done by the dict comprehension in
`envfile_to_params`: `v[1:-1] if v.startswith('"') and v.endswith('"')
else v`. -/
def pyUnquote (v : List Char) : List Char :=
  if v.head? = some '"' ∧ v.getLast? = some '"' then (v.drop 1).dropLast else v

/-- One line of `envfile_to_params`: `line.split("=")` kept only when it
has exactly two fields, then quote-stripping on the value. -/
def lineToEntry (line : List Char) : Option (List Char × List Char) :=
  match splitOnChar '=' line with
  | [k, v] => some (k, pyUnquote v)
  | _ => none

/-- `util.envfile_to_params`: association list of the parsed entries, in
line order (the Python dict keeps the last occurrence of a duplicate key;
no claim involves duplicate keys). -/
def envfile_to_params (data : List Char) : List (List Char × List Char) :=
  (pySplitlines data).filterMap lineToEntry

/-! ## `util.run` (util.py lines 5-14) -/

/-- Outcome of one external-process execution, as captured by
`subprocess.run(..., capture_output=True, encoding="utf8")`. -/
structure ProcResult where
  returncode : Int
  stdout : List Char
  stderr : List Char
deriving DecidableEq

/-- `subprocess.CalledProcessError`, raised by `check=True`. -/
structure CalledProcessError where
  returncode : Int
  cmd : List String
  output : List Char
  stderr : List Char
deriving DecidableEq

/-- `util.run`: execute the command through an execution oracle `exec`;
on nonzero exit raise `CalledProcessError`, otherwise return
`proc.stdout.strip()`. -/
def run (exec : List String → ProcResult) (commands : List String) :
    Except CalledProcessError (List Char) :=
  let proc := exec commands
  if proc.returncode ≠ 0 then
    .error ⟨proc.returncode, commands, proc.stdout, proc.stderr⟩
  else
    .ok (pyStrip proc.stdout)

/-! ## Filesystem model

A filesystem state: regular files (path, content bytes, `st_mtime`) and
directories.  `st_mtime` is a rational, modelling the fractional POSIX
timestamp.  All mutation in the Python code goes through `os.remove`,
`shutil.rmtree`, `shutil.copyfile`, `os.makedirs` and plain writes, which
are modelled below. -/

/-- Metadata of one regular file: its byte content and `st_mtime`. -/
structure FileMeta where
  content : List Nat
  mtime : ℚ
deriving DecidableEq

/-- Filesystem state: regular files and directories. -/
structure FS where
  files : List (String × FileMeta)
  dirs : List String
deriving DecidableEq

/-- `os.stat` / `open` on a regular file: its metadata, if present. -/
def statFile (fs : FS) (p : String) : Option FileMeta :=
  (fs.files.find? (fun e => e.1 = p)).map (fun e => e.2)

/-- `os.path.isfile`. -/
def isfile (fs : FS) (p : String) : Bool :=
  (statFile fs p).isSome

/-- `os.path.isdir`. -/
def isdir (fs : FS) (p : String) : Bool :=
  fs.dirs.contains p

/-- `os.path.join` for the always-relative second component used by the
code (`join(root, name)`, `join(dir, file)`). -/
def pathJoin (a b : String) : String := a ++ "/" ++ b

/-- `os.path.basename`: the part after the last `'/'`. -/
def pyBasename (p : String) : String :=
  ((p.data.reverse.takeWhile (fun c => c ≠ '/')).reverse).asString

/-- Index of the last occurrence of `c` in `s`, if any. -/
def lastIdxOf (c : Char) (s : List Char) : Option Nat :=
  (s.reverse.findIdx? (fun x => x = c)).map (fun i => s.length - 1 - i)

/-- `os.path.splitext(base)[0]` on a path-free base name: strip from the
last dot, unless every character before it is itself a dot (so that
leading-dot names such as `.bashrc` keep their "extension"). -/
def stripExtBase (base : List Char) : List Char :=
  match lastIdxOf '.' base with
  | none => base
  | some di => if (base.take di).any (fun c => c ≠ '.') then base.take di else base

/-- `os.path.splitext(p)[0]`: the extension is looked for in the final
path component only. -/
def pySplitextRoot (p : String) : String :=
  let si := match lastIdxOf '/' p.data with
    | none => 0
    | some i => i + 1
  ((p.data.take si) ++ stripExtBase (p.data.drop si)).asString

/-! ## Errors raised by the embedded code -/

/-- The exceptions the modelled Python code can raise. -/
inductive PyError where
  /-- `RuntimeError(msg)`. -/
  | runtimeError (msg : String)
  /-- `FileNotFoundError` from `os.stat`/`open`/`os.remove` on a missing
  path, or `filecmp.cmp` statting a missing file. -/
  | fileNotFound (path : String)
  /-- `FileExistsError` from `os.makedirs` without `exist_ok`. -/
  | fileExists (path : String)
  /-- The bare `Exception("Unknown initramfs type: ...")` raised in
  `generate_bundle_for_preset` (bundle.py line 67). -/
  | unknownImageType (msg : String)
deriving DecidableEq

/-! ## `db.py`: `KernelBundle` and `KernelPreset` -/

/-- The per-preset fields a bundle's back-reference gives access to
(`db.py`: the `preset` slot points at the owning `KernelPreset`; only its
`path_root`, `name`, `path_kernel`, `path_initramfs` are consulted through
the back-reference). -/
structure PresetData where
  name : String
  path_root : String
  path_kernel : String
  path_initramfs : String
deriving DecidableEq

/-- `db.KernelBundle` (db.py lines 11-105): name, build id and the
back-reference to the owning preset (`None` right after construction). -/
structure KernelBundle where
  name : String
  build_id : ℤ
  preset : Option PresetData
deriving DecidableEq

/-- `KernelBundle.__init__` (db.py lines 39-48): the preset back-reference
starts out unset. -/
def mkKernelBundle (name : String) (build_id : ℤ) : KernelBundle :=
  ⟨name, build_id, none⟩

/-- `db.KernelPreset` (db.py lines 107-201). -/
structure KernelPreset where
  name : String
  bundles : List KernelBundle
  path_root : String
  path_kernel : String
  path_initramfs : String
deriving DecidableEq

/-- The data of a preset seen through a bundle's back-reference. -/
def presetData (p : KernelPreset) : PresetData :=
  ⟨p.name, p.path_root, p.path_kernel, p.path_initramfs⟩

/-- `KernelPreset.__init__` (db.py lines 139-152): stores the fields and
sets `item.preset = self` for every listed bundle. -/
def mkKernelPreset (name : String) (bundles : List KernelBundle)
    (path_root path_kernel path_initramfs : String) : KernelPreset :=
  let data : PresetData := ⟨name, path_root, path_kernel, path_initramfs⟩
  ⟨name, bundles.map (fun b => { b with preset := some data }),
    path_root, path_kernel, path_initramfs⟩

/-- The path `join(self.preset.path_root, self.preset.name, self.name)`
of `KernelBundle.path_bundle`, once the owning preset is known. -/
def bundlePath (pd : PresetData) (b : KernelBundle) : String :=
  pathJoin (pathJoin pd.path_root pd.name) b.name

/-- `KernelBundle.path_bundle` (db.py lines 50-59): `RuntimeError` without
an owning preset. -/
def path_bundle (b : KernelBundle) : Except PyError String :=
  match b.preset with
  | none => .error (.runtimeError "Cannot determine path without parent preset")
  | some pd => .ok (bundlePath pd b)

/-- `KernelBundle.path_fallback` (db.py lines 61-73): the bundle path with
its extension split off, when that is an existing directory. -/
def path_fallback (fs : FS) (b : KernelBundle) : Except PyError (Option String) :=
  match path_bundle b with
  | .error e => .error e
  | .ok p =>
    let d := pySplitextRoot p
    .ok (if isdir fs d then some d else none)

/-- `filecmp.cmp(f1, f2)` with the default `shallow=True`: both files are
statted (raising on a missing one); if their stat signatures (regular
file, size, mtime) agree the files compare equal without looking at the
bytes, otherwise the byte contents are compared. -/
def filecmp_cmp (fs : FS) (p1 p2 : String) : Except PyError Bool :=
  match statFile fs p1 with
  | none => .error (.fileNotFound p1)
  | some m1 =>
    match statFile fs p2 with
    | none => .error (.fileNotFound p2)
    | some m2 =>
      .ok (decide ((m1.content.length = m2.content.length ∧ m1.mtime = m2.mtime)
        ∨ m1.content = m2.content))

/-- `KernelBundle.currently_used` (db.py lines 75-86): `RuntimeError`
without an owning preset; otherwise compare against
`join(path_root, "kernel.efi")` when that file exists, else `False`. -/
def currently_used (fs : FS) (b : KernelBundle) : Except PyError Bool :=
  match b.preset with
  | none => .error (.runtimeError "Cannot determine current usage without parent preset")
  | some pd =>
    let current_kernel := pathJoin pd.path_root "kernel.efi"
    if isfile fs current_kernel then filecmp_cmp fs current_kernel (bundlePath pd b)
    else .ok false

/-- `KernelPreset.last_build_id` (db.py lines 154-162): `max` of the build
ids, `None` when there are no bundles. -/
def last_build_id (p : KernelPreset) : Option ℤ :=
  match p.bundles.map (fun b => b.build_id) with
  | [] => none
  | x :: xs => some (xs.foldl max x)

/-- `KernelPreset.currently_used` (db.py lines 164-171):
`any(x.currently_used for x in self.bundles)`, evaluated lazily so the
first raising bundle aborts the `any`. -/
def preset_currently_used (fs : FS) : List KernelBundle → Except PyError Bool
  | [] => .ok false
  | b :: bs =>
    match currently_used fs b with
    | .error e => .error e
    | .ok true => .ok true
    | .ok false => preset_currently_used fs bs

/-! ## Filesystem mutation primitives used by `bundle.py` -/

/-- `os.remove`: delete a regular file, `FileNotFoundError` if absent. -/
def osRemove (fs : FS) (p : String) : Except PyError FS :=
  if isfile fs p then
    .ok { fs with files := fs.files.filter (fun e => e.1 ≠ p) }
  else .error (.fileNotFound p)

/-- Is `q` equal to directory `d` or located beneath it? -/
def underDir (d q : String) : Bool :=
  q = d || (pathJoin d "").data.isPrefixOf q.data

/-- `shutil.rmtree`: delete the directory tree rooted at `p` (the
directory itself, any directories below it and any files below it);
errors when `p` is not a directory. -/
def rmtree (fs : FS) (p : String) : Except PyError FS :=
  if isdir fs p then
    .ok { files := fs.files.filter (fun e => ¬ underDir p e.1),
          dirs := fs.dirs.filter (fun d => ¬ underDir p d) }
  else .error (.fileNotFound p)

/-- Write (or overwrite) a regular file with fresh content; its mtime is
the wall-clock write time `now`. -/
def writeFile (fs : FS) (p : String) (content : List Nat) (now : ℚ) : FS :=
  { fs with files := fs.files.filter (fun e => e.1 ≠ p) ++ [(p, ⟨content, now⟩)] }

/-- `shutil.copyfile(src, dst)`: read the source bytes (raising when the
source is missing) and write them to the destination; `copyfile` does not
preserve the source mtime, the destination is stamped with the copy
time. -/
def copyfileF (fs : FS) (src dst : String) (now : ℚ) : Except PyError FS :=
  match statFile fs src with
  | none => .error (.fileNotFound src)
  | some m => .ok (writeFile fs dst m.content now)

/-- `os.makedirs(p, exist_ok=True)`: ensure the directory exists
(intermediate directories are abstracted away). -/
def makedirsOk (fs : FS) (p : String) : FS :=
  if isdir fs p then fs else { fs with dirs := fs.dirs ++ [p] }

/-- `os.makedirs(p)` without `exist_ok`: `FileExistsError` when the
directory is already there. -/
def makedirsStrict (fs : FS) (p : String) : Except PyError FS :=
  if isdir fs p then .error (.fileExists p)
  else .ok { fs with dirs := fs.dirs ++ [p] }

/-! ## Python list slices used by `delete_old_bundles`

`bundles[:-k]` has upper bound `-k`, which for `k = 0` is the bound `0`
(so the slice is empty), and otherwise `len - k` clamped at `0`.
Symmetrically for `bundles[-k:]`. -/

/-- Python `l[:-k]` for a nonnegative `k`. -/
def pySliceDropLast (l : List KernelBundle) (k : Nat) : List KernelBundle :=
  l.take (if k = 0 then 0 else l.length - k)

/-- Python `l[-k:]` for a nonnegative `k`. -/
def pySliceTakeLast (l : List KernelBundle) (k : Nat) : List KernelBundle :=
  l.drop (if k = 0 then 0 else l.length - k)

/-! ## `bundle.delete_old_bundles` (bundle.py lines 170-181) -/

/-- The body of the deletion loop (bundle.py lines 177-180): remove the
bundle's file, then its fallback directory when `path_fallback` reports
one. -/
def deleteOneBundle (fs : FS) (b : KernelBundle) : Except PyError FS :=
  match path_bundle b with
  | .error e => .error e
  | .ok p =>
    match osRemove fs p with
    | .error e => .error e
    | .ok fs1 =>
      match path_fallback fs1 b with
      | .error e => .error e
      | .ok (some d) => rmtree fs1 d
      | .ok none => .ok fs1

/-- `bundle.delete_old_bundles(preset, number_to_keep=1)`: when more than
`number_to_keep` bundles exist, delete the files of `bundles[:-k]` and
keep `bundles[-k:]` in memory.  Returns the filesystem and the updated
preset (in the source the in-memory list is updated before the deletion
loop; on the success path, modelled here, the two orders agree). -/
def delete_old_bundles (fs : FS) (pr : KernelPreset) (number_to_keep : Nat) :
    Except PyError (FS × KernelPreset) :=
  if pr.bundles.length > number_to_keep then
    -- bundles_to_delete = bundles[:-number_to_keep], kept = bundles[-number_to_keep:]
    match (pySliceDropLast pr.bundles number_to_keep).foldlM deleteOneBundle fs with
    | .error e => .error e
    | .ok fs' => .ok (fs', { pr with bundles := pySliceTakeLast pr.bundles number_to_keep })
  else .ok (fs, pr)

/-! ## `bundle.generate_bundle_for_preset` (bundle.py lines 15-123) -/

/-- Fixed input paths (bundle.py lines 12-13) and the OS release file
(line 50). -/
def UCODE_FILE : String := "/boot/amd-ucode.img"

/-- `CMDLINE_FILE` constant (bundle.py line 13). -/
def CMDLINE_FILE : String := "/boot/cmdline.txt"

/-- Path of the OS release text copied into the `.osrel` section. -/
def OSREL_FILE : String := "/etc/os-release"

/-- Oracle for the parts of the outside world the generator consults but
whose values the embedded claims never inspect: the MIME-detection tool's
answer per path, the wall clock, and the opaque byte outputs of the
external `objcopy` and `sbsign` tools.  `launchBytes` stands for the
`launch.nsh` content, whose computation uses the helper
`get_mountpoint_for` imported by bundle.py but absent from the sources. -/
structure World where
  mime : String → String
  now : ℚ
  unsignedBytes : List Nat
  signedBytes : List Nat
  launchBytes : List Nat

/-- The build identifier (bundle.py lines 20-25):
`floor(max(mtime kernel, mtime ucode, mtime initramfs, mtime cmdline))`,
with the arguments in source order. -/
def buildIdOf (mk mu mi mc : ℚ) : ℤ :=
  ⌊max (max (max mk mu) mi) mc⌋

/-- The four `os.stat` calls of lines 21-24, in order (the first missing
file raises), followed by the `floor(max(...))`. -/
def computeBuildId (fs : FS) (p : KernelPreset) : Except PyError ℤ :=
  match statFile fs p.path_kernel with
  | none => .error (.fileNotFound p.path_kernel)
  | some m1 =>
    match statFile fs UCODE_FILE with
    | none => .error (.fileNotFound UCODE_FILE)
    | some m2 =>
      match statFile fs p.path_initramfs with
      | none => .error (.fileNotFound p.path_initramfs)
      | some m3 =>
        match statFile fs CMDLINE_FILE with
        | none => .error (.fileNotFound CMDLINE_FILE)
        | some m4 => .ok (buildIdOf m1.mtime m2.mtime m3.mtime m4.mtime)

/-- One iteration of the image loop (bundle.py lines 58-70): ask the MIME
tool for the file's type; plain and gzipped images are appended to the
initramfs blob (whose bytes no claim observes), anything else raises
`Exception("Unknown initramfs type: " + type)` — note the message carries
the detected type only, not the file path. -/
def checkImg (w : World) (fs : FS) (img : String) : Except PyError Unit :=
  let t := w.mime img
  if t = "application/octet-stream" ∨ t = "application/gzip" then
    match statFile fs img with
    | none => .error (.fileNotFound img)
    | some _ => .ok ()
  else .error (.unknownImageType ("Unknown initramfs type: " ++ t))

/-- `bundle.generate_fallback_for_preset` (bundle.py lines 125-159):
create `root/name/kernel-<id>` (plain `makedirs`, so it must not already
exist), copy kernel (with `.efi` appended), initramfs and microcode into
it, and write `launch.nsh`. -/
def generate_fallback_for_preset (w : World) (fs : FS) (p : KernelPreset)
    (build_id : ℤ) : Except PyError FS :=
  let output_dir := pathJoin (pathJoin p.path_root p.name) ("kernel-" ++ toString build_id)
  match makedirsStrict fs output_dir with
  | .error e => .error e
  | .ok fs1 =>
    let dest_kernel := pathJoin output_dir (pyBasename p.path_kernel ++ ".efi")
    let dest_initramfs := pathJoin output_dir (pyBasename p.path_initramfs)
    let dest_ucode := pathJoin output_dir (pyBasename UCODE_FILE)
    match copyfileF fs1 p.path_kernel dest_kernel w.now with
    | .error e => .error e
    | .ok fs2 =>
      match copyfileF fs2 p.path_initramfs dest_initramfs w.now with
      | .error e => .error e
      | .ok fs3 =>
        match copyfileF fs3 UCODE_FILE dest_ucode w.now with
        | .error e => .error e
        | .ok fs4 =>
          match statFile fs4 CMDLINE_FILE with
          | none => .error (.fileNotFound CMDLINE_FILE)
          | some _ => .ok (writeFile fs4 (pathJoin output_dir "launch.nsh") w.launchBytes w.now)

/-- The part of `generate_bundle_for_preset` after the staleness check
(bundle.py lines 32-123): build the staging blobs (the command-line and
OS-release reads can raise on missing files; their text is not otherwise
observed), run the image loop, create the output directory, embed the
sections, sign when `sb_dir` holds both `db.key` and `db.crt` or copy the
unsigned image otherwise, optionally generate the fallback, and return
the fresh `KernelBundle` with no owner attached.  The filesystem reached
at the moment of a raise is returned alongside the error. -/
def generateRest (w : World) (fs : FS) (p : KernelPreset) (sb_dir : String)
    (generate_fallback : Bool) (current_build_id : ℤ) :
    FS × Except PyError (Option KernelBundle) :=
  let bundle_name := "kernel-" ++ toString current_build_id ++ ".efi"
  -- line 43: open(CMDLINE_FILE) for the cmdline blob
  match statFile fs CMDLINE_FILE with
  | none => (fs, .error (.fileNotFound CMDLINE_FILE))
  | some _ =>
    -- line 50: open("/etc/os-release") for the osrel blob
    match statFile fs OSREL_FILE with
    | none => (fs, .error (.fileNotFound OSREL_FILE))
    | some _ =>
      -- lines 58-71: the image loop, microcode first then initramfs
      match checkImg w fs UCODE_FILE with
      | .error e => (fs, .error e)
      | .ok _ =>
        match checkImg w fs p.path_initramfs with
        | .error e => (fs, .error e)
        | .ok _ =>
          -- lines 77-79 and 96-98: output directory
          let output_dir := pathJoin p.path_root p.name
          let output_file := pathJoin output_dir bundle_name
          let fs1 := makedirsOk fs output_dir
          -- lines 81-89: objcopy into scratch storage (no fs effect)
          -- lines 100-118: sign into place, or copy the unsigned image
          let signed := isfile fs1 (pathJoin sb_dir "db.key")
            && isfile fs1 (pathJoin sb_dir "db.crt")
          let fs2 := writeFile fs1 output_file
            (if signed then w.signedBytes else w.unsignedBytes) w.now
          -- lines 120-121: fallback generation
          if generate_fallback then
            match generate_fallback_for_preset w fs2 p current_build_id with
            | .error e => (fs2, .error e)
            | .ok fs3 => (fs3, .ok (some (mkKernelBundle bundle_name current_build_id)))
          else (fs2, .ok (some (mkKernelBundle bundle_name current_build_id)))

/-- `bundle.generate_bundle_for_preset(preset, sb_dir, generate_fallback=True)`
(bundle.py lines 15-123): compute the fresh build identifier, return
`None` (with the filesystem untouched) when `last_build_id` exists and is
`>=` the fresh identifier, otherwise generate. -/
def generate_bundle_for_preset (w : World) (fs : FS) (p : KernelPreset)
    (sb_dir : String) (generate_fallback : Bool := true) :
    FS × Except PyError (Option KernelBundle) :=
  match computeBuildId fs p with
  | .error e => (fs, .error e)
  | .ok current_build_id =>
    match last_build_id p with
    | some l =>
      if l ≥ current_build_id then (fs, .ok none)
      else generateRest w fs p sb_dir generate_fallback current_build_id
    | none => generateRest w fs p sb_dir generate_fallback current_build_id

/-! ## `bundle.make_currently_used` (bundle.py lines 161-168) and the
`bundle` command loop of `__init__.main` (lines 35-44) -/

/-- `bundle.make_currently_used`: copy the newest bundle's file over
`root/kernel.efi` when any bundles exist. -/
def make_currently_used (w : World) (fs : FS) (p : KernelPreset) :
    Except PyError FS :=
  match p.bundles.getLast? with
  | none => .ok fs
  | some latest =>
    match path_bundle latest with
    | .error e => .error e
    | .ok src => copyfileF fs src (pathJoin p.path_root "kernel.efi") w.now

/-- The body of the `bundle` command loop (lines 38-44): generate; when a
bundle was produced, attach the preset back-reference, append it, refresh
the active-bundle copy when the preset is currently used, and prune to 3.
The source passes the boolean `True` where `generate_bundle_for_preset`
expects the `sb_dir` path; the model keeps `sb_dir` a path parameter
(using the boolean would itself raise a `TypeError` at the signing step,
another error the loop does not isolate). -/
def mainBundleStep (w : World) (sb_dir : String) (fs : FS) (p : KernelPreset) :
    Except PyError (FS × KernelPreset) :=
  let (fs1, r) := generate_bundle_for_preset w fs p sb_dir true
  match r with
  | .error e => .error e
  | .ok none => .ok (fs1, p)
  | .ok (some nb) =>
    let nb := { nb with preset := some (presetData p) }
    let p1 := { p with bundles := p.bundles ++ [nb] }
    match preset_currently_used fs1 p1.bundles with
    | .error e => .error e
    | .ok used =>
      match (if used then make_currently_used w fs1 p1 else .ok fs1) with
      | .error e => .error e
      | .ok fs2 => delete_old_bundles fs2 p1 3

/-- The `bundle` command over all discovered presets (`__init__.py` lines
35-44): iterate `mainBundleStep`; an exception propagates out of the
`for` loop, so iteration stops at the first failing preset.  The result
records the names of the presets that were processed and the error, if
one was raised. -/
def bundleCommandLoop (w : World) (sb_dir : String) :
    FS → List KernelPreset → List String × Option PyError
  | _, [] => ([], none)
  | fs, p :: rest =>
    match mainBundleStep w sb_dir fs p with
    | .error e => ([], some e)
    | .ok (fs', _) =>
      let (done, err) := bundleCommandLoop w sb_dir fs' rest
      (p.name :: done, err)

deriving instance DecidableEq for Except

/-! ## Helper notions used only in theorem statements -/

/-- Does `n` occur as a contiguous run inside `h`?  Used to state that an
error message does or does not mention a path or a type string. -/
def hasSub (n : List Char) : List Char → Bool
  | [] => n.isEmpty
  | c :: t => n.isPrefixOf (c :: t) || hasSub n t

/-- Spec-side description (from the spec's words, for comparison only):
trim trailing whitespace and nothing else. -/
def pyStripTrailing (s : List Char) : List Char :=
  (s.reverse.dropWhile isPyWS).reverse

/-- Spec-side description of the entry parsed from one `KEY=VALUE` line:
the key is the text before the `'='`, the value is the text after it with
a matching pair of surrounding double quotes removed. -/
def parsedEntry (line : List Char) : List Char × List Char :=
  (line.takeWhile (fun c => c ≠ '='),
    pyUnquote ((line.dropWhile (fun c => c ≠ '=')).tail))

/-! ## Lemmas about `splitOnChar` and `envfile_to_params` -/

theorem splitOnChar_ne_nil (c : Char) (s : List Char) : splitOnChar c s ≠ [] := by
  cases s with
  | nil => simp [splitOnChar]
  | cons x xs =>
    simp only [splitOnChar]
    split <;> simp

theorem splitOnChar_of_count_zero (c : Char) (s : List Char)
    (h : s.count c = 0) : splitOnChar c s = [s] := by
  induction s with
  | nil => simp [splitOnChar]
  | cons x xs ih =>
    rw [List.count_cons] at h
    have hx : ¬ x = c := by
      intro hx
      simp [hx] at h
    have hxs : xs.count c = 0 := by omega
    simp only [splitOnChar, if_neg hx, ih hxs]
    simp

theorem length_splitOnChar (c : Char) (s : List Char) :
    (splitOnChar c s).length = s.count c + 1 := by
  induction s with
  | nil => simp [splitOnChar]
  | cons x xs ih =>
    simp only [splitOnChar]
    by_cases hx : x = c
    · simp [hx, List.count_cons, ih]
    · have hne := splitOnChar_ne_nil c xs
      rw [if_neg hx]
      simp only [List.length_cons, List.count_cons, List.length_tail]
      have hpos : 0 < (splitOnChar c xs).length := List.length_pos.mpr hne
      have hxc : (x == c) = false := by simp [hx]
      simp only [hxc, Bool.false_eq_true, if_false]
      omega

theorem splitOnChar_append (c : Char) (s₁ s₂ : List Char)
    (h : s₁.count c = 0) : splitOnChar c (s₁ ++ c :: s₂) = s₁ :: splitOnChar c s₂ := by
  induction s₁ with
  | nil => simp [splitOnChar]
  | cons x xs ih =>
    rw [List.count_cons] at h
    have hx : ¬ x = c := by
      intro hx
      simp [hx] at h
    have hxs : xs.count c = 0 := by omega
    rw [List.cons_append]
    simp only [splitOnChar, if_neg hx]
    rw [ih hxs]
    rfl

theorem splitOnChar_of_count_one (c : Char) (s : List Char)
    (h : s.count c = 1) :
    splitOnChar c s =
      [s.takeWhile (fun x => x ≠ c), (s.dropWhile (fun x => x ≠ c)).tail] := by
  have hsplit := List.takeWhile_append_dropWhile (p := fun x => decide (x ≠ c)) (l := s)
  have hmem : c ∈ s := by
    rw [← List.count_pos_iff]
    omega
  have htcount : ∀ a ∈ s.takeWhile (fun x => decide (x ≠ c)), a ≠ c := by
    intro a ha
    have := List.mem_takeWhile_imp ha
    simpa using this
  have hcount0 : (s.takeWhile (fun x => decide (x ≠ c))).count c = 0 := by
    rw [List.count_eq_zero]
    intro hc
    exact (htcount c hc) rfl
  have hdw : s.dropWhile (fun x => decide (x ≠ c)) ≠ [] := by
    intro hnil
    have hfix : s.takeWhile (fun x => decide (x ≠ c)) = s := by
      conv_rhs => rw [← hsplit, hnil]
      rw [List.append_nil]
    rw [← hfix] at hmem
    exact (htcount c hmem) rfl
  have hhead : (s.dropWhile (fun x => decide (x ≠ c))).head hdw = c := by
    have := List.head_dropWhile_not (p := fun x => decide (x ≠ c)) (l := s) hdw
    simpa using this
  have hcons : s.dropWhile (fun x => decide (x ≠ c)) =
      c :: (s.dropWhile (fun x => decide (x ≠ c))).tail := by
    conv_lhs => rw [← List.head_cons_tail _ hdw, hhead]
  have hs : s = s.takeWhile (fun x => decide (x ≠ c)) ++
      c :: (s.dropWhile (fun x => decide (x ≠ c))).tail := by
    conv_lhs => rw [← hsplit]
    rw [← hcons]
  have hcnt := h
  rw [hs, List.count_append, hcount0, List.count_cons] at hcnt
  have hcc : (c == c) = true := by simp
  rw [hcc] at hcnt
  simp only [if_true] at hcnt
  have htail0 : ((s.dropWhile (fun x => decide (x ≠ c))).tail).count c = 0 := by omega
  conv_lhs => rw [hs]
  rw [splitOnChar_append c _ _ hcount0, splitOnChar_of_count_zero c _ htail0]

theorem lineToEntry_eq (line : List Char) :
    lineToEntry line =
      if line.count '=' = 1 then some (parsedEntry line) else none := by
  by_cases h : line.count '=' = 1
  · rw [if_pos h, lineToEntry, splitOnChar_of_count_one '=' line h, parsedEntry]
  · rw [if_neg h]
    have hlen := length_splitOnChar '=' line
    have h2 : (splitOnChar '=' line).length ≠ 2 := by omega
    rw [lineToEntry]
    rcases hr : splitOnChar '=' line with _ | ⟨k, _ | ⟨v, _ | ⟨w, ws⟩⟩⟩ <;>
      simp_all

theorem filterMap_lineToEntry (ls : List (List Char)) :
    ls.filterMap lineToEntry =
      (ls.filter (fun l => l.count '=' = 1)).map parsedEntry := by
  induction ls with
  | nil => simp
  | cons l ls ih =>
    rw [List.filterMap_cons, List.filter_cons, lineToEntry_eq]
    by_cases h : l.count '=' = 1
    · simp [h, ih]
    · simp [h, ih]

theorem pyUnquote_wrapped (v : List Char) :
    pyUnquote ('"' :: v ++ ['"']) = v := by
  rw [pyUnquote, if_pos]
  · simp
  · constructor
    · rfl
    · rw [List.getLast?_concat]

/-- C7: `envfile_to_params` produces an entry exactly for the lines with a
single `'='` (other lines are silently ignored); on such a line the key is
the text before the `'='` and the value is the text after it, with a
surrounding pair of double quotes stripped and no escape processing; the
three-line example parses to exactly the two expected entries. -/
theorem envfile_to_params_spec :
    (∀ data : List Char,
      envfile_to_params data =
        ((pySplitlines data).filter (fun l => l.count '=' = 1)).map parsedEntry) ∧
    (∀ v : List Char, pyUnquote ('"' :: v ++ ['"']) = v) ∧
    envfile_to_params ("FOO=\"bar\"\nBAZ=qux\n# comment\n".data) =
      [("FOO".data, "bar".data), ("BAZ".data, "qux".data)] := by
  refine ⟨fun data => ?_, pyUnquote_wrapped, by decide⟩
  rw [envfile_to_params, filterMap_lineToEntry]

/-- C10: a comment line containing exactly one `'='` is parsed as an
entry, not skipped — `"# FOO=bar"` yields the entry `("# FOO", "bar")` —
and a line starting with `'#'` is ignored precisely when it does not
contain exactly one `'='`. -/
theorem comment_line_with_single_eq_parsed :
    envfile_to_params ("# FOO=bar".data) = [("# FOO".data, "bar".data)] ∧
    (∀ line : List Char, line.head? = some '#' → line.count '=' = 1 →
      lineToEntry line = some (parsedEntry line)) ∧
    (∀ line : List Char, line.head? = some '#' → line.count '=' ≠ 1 →
      lineToEntry line = none) := by
  refine ⟨by decide, fun line _ h1 => ?_, fun line _ h1 => ?_⟩
  · rw [lineToEntry_eq, if_pos h1]
  · rw [lineToEntry_eq, if_neg h1]

theorem comment_line_with_single_eq_parsed_inst :
    lineToEntry ("# A=b".data) = some (parsedEntry ("# A=b".data)) :=
  comment_line_with_single_eq_parsed.2.1 ("# A=b".data) (by decide) (by decide)

/-! ## Lemmas about `pyStrip` -/

theorem dropWhile_sfx (p : Char → Bool) (l : List Char) : l.dropWhile p <:+ l := by
  induction l with
  | nil => simp
  | cons x xs ih =>
    rw [List.dropWhile_cons]
    by_cases h : p x
    · rw [if_pos h]
      exact ih.trans (List.suffix_cons x xs)
    · rw [if_neg h]

theorem head?_dropWhile (p : Char → Bool) (l : List Char) (a : Char)
    (h : (l.dropWhile p).head? = some a) : p a = false := by
  induction l with
  | nil => simp at h
  | cons x xs ih =>
    rw [List.dropWhile_cons] at h
    by_cases hx : p x
    · rw [if_pos hx] at h
      exact ih h
    · rw [if_neg hx] at h
      simp at h
      rw [← h]
      simpa using hx

theorem pyStrip_sub (s : List Char) : pyStrip s <:+: s := by
  rw [pyStrip]
  have h1 : s.dropWhile isPyWS <:+ s := dropWhile_sfx _ s
  have h2 : (s.dropWhile isPyWS).reverse.dropWhile isPyWS <:+
      (s.dropWhile isPyWS).reverse := dropWhile_sfx _ _
  have h3 : ((s.dropWhile isPyWS).reverse.dropWhile isPyWS).reverse <+:
      s.dropWhile isPyWS := by
    rw [← List.reverse_suffix]
    simpa using h2
  exact h3.isInfix.trans h1.isInfix

theorem pyStrip_head (s : List Char) (a : Char)
    (h : (pyStrip s).head? = some a) : isPyWS a = false := by
  rw [pyStrip] at h
  have h3 : ((s.dropWhile isPyWS).reverse.dropWhile isPyWS).reverse <+:
      s.dropWhile isPyWS := by
    rw [← List.reverse_suffix]
    simpa using dropWhile_sfx isPyWS (s.dropWhile isPyWS).reverse
  obtain ⟨t, ht⟩ := h3
  rcases hc : ((s.dropWhile isPyWS).reverse.dropWhile isPyWS).reverse with _ | ⟨b, bs⟩
  · rw [hc] at h
    simp at h
  · rw [hc] at h
    simp at h
    rw [hc] at ht
    have : (s.dropWhile isPyWS).head? = some b := by
      rw [← ht]
      simp
    rw [← h]
    exact head?_dropWhile isPyWS s b this

theorem pyStrip_last (s : List Char) (a : Char)
    (h : (pyStrip s).getLast? = some a) : isPyWS a = false := by
  rw [pyStrip, List.getLast?_reverse] at h
  exact head?_dropWhile isPyWS (s.dropWhile isPyWS).reverse a h

/-! ## C8: the process runner -/

/-- The execution oracle of the C8 counterexample: exit 0 with a leading
space on stdout. -/
def execLead : List String → ProcResult := fun _ => ⟨0, [' ', 'a'], []⟩

/-- C8 counterexample: `run` does not return stdout with only the
trailing whitespace trimmed — on stdout `" a"` (no trailing whitespace at
all) the leading space is removed as well, because the source calls
`proc.stdout.strip()`. -/
theorem run_not_trailing_only :
    (execLead ["prog"]).returncode = 0 ∧
    run execLead ["prog"] ≠ .ok (pyStripTrailing (execLead ["prog"]).stdout) ∧
    run execLead ["prog"] = .ok ['a'] := by
  refine ⟨rfl, ?_, by decide⟩
  intro h
  simp [run, execLead, pyStripTrailing, pyStrip, isPyWS] at h

/-- C8 (amended): on zero exit status `run` returns the captured stdout
with whitespace stripped from both ends (the result is a contiguous run
of the stdout with no leading and no trailing whitespace); on nonzero
exit status it fails with a `CalledProcessError` carrying the command
(program name and arguments), the exit code and the captured stderr. -/
theorem run_spec (exec : List String → ProcResult) (commands : List String) :
    ((exec commands).returncode = 0 →
      run exec commands = .ok (pyStrip (exec commands).stdout) ∧
      pyStrip (exec commands).stdout <:+: (exec commands).stdout ∧
      (∀ a, (pyStrip (exec commands).stdout).head? = some a → isPyWS a = false) ∧
      (∀ a, (pyStrip (exec commands).stdout).getLast? = some a → isPyWS a = false)) ∧
    ((exec commands).returncode ≠ 0 →
      run exec commands =
        .error ⟨(exec commands).returncode, commands,
          (exec commands).stdout, (exec commands).stderr⟩) := by
  constructor
  · intro h0
    refine ⟨?_, pyStrip_sub _, pyStrip_head _, pyStrip_last _⟩
    rw [run]
    simp [h0]
  · intro hne
    rw [run]
    simp [hne]

/-- The execution oracle of the C8 witness: nonzero exit. -/
def execFail : List String → ProcResult := fun _ => ⟨3, ['o'], ['e']⟩

theorem run_spec_inst :
    run execLead ["prog"] = .ok (pyStrip (execLead ["prog"]).stdout) ∧
    run execFail ["prog", "x"] = .error ⟨3, ["prog", "x"], ['o'], ['e']⟩ :=
  ⟨((run_spec execLead ["prog"]).1 (by decide)).1,
    (run_spec execFail ["prog", "x"]).2 (by decide)⟩

/-! ## C4: the build identifier under modification of the four inputs -/

/-- C4 counterexample: the kernel's modification time increases from
`1/2` to `3/4` (the other three stay put) yet the computed build
identifier does not strictly increase, because of the `floor`.  This
refutes the "strictly increases if at least one modification time
increases" direction. -/
theorem buildId_increase_not_strict :
    (1 / 2 : ℚ) < 3 / 4 ∧
    buildIdOf (1 / 2) 0 0 0 = 0 ∧
    buildIdOf (3 / 4) 0 0 0 = 0 ∧
    ¬ buildIdOf (1 / 2) 0 0 0 < buildIdOf (3 / 4) 0 0 0 := by
  have h1 : buildIdOf (1 / 2) 0 0 0 = 0 := by
    have hm : max (max (max (1 / 2 : ℚ) 0) 0) 0 = 1 / 2 := by
      rw [max_eq_left, max_eq_left, max_eq_left] <;> norm_num
    rw [buildIdOf, hm, Int.floor_eq_iff]
    norm_num
  have h2 : buildIdOf (3 / 4) 0 0 0 = 0 := by
    have hm : max (max (max (3 / 4 : ℚ) 0) 0) 0 = 3 / 4 := by
      rw [max_eq_left, max_eq_left, max_eq_left] <;> norm_num
    rw [buildIdOf, hm, Int.floor_eq_iff]
    norm_num
  refine ⟨by norm_num, h1, h2, ?_⟩
  rw [h1, h2]
  omega

/-- C4 (amended): when none of the four tracked modification times
decreases the computed build identifier does not decrease, and a strict
increase of the identifier implies that at least one of the four
modification times strictly increased.  (The converse implication is
refuted by the counterexample: an mtime increase swallowed by the
`floor` leaves the identifier unchanged.) -/
theorem buildId_monotone (a b c d a' b' c' d' : ℚ) :
    ((a ≤ a' → b ≤ b' → c ≤ c' → d ≤ d' →
      buildIdOf a b c d ≤ buildIdOf a' b' c' d')) ∧
    (buildIdOf a b c d < buildIdOf a' b' c' d' →
      a < a' ∨ b < b' ∨ c < c' ∨ d < d') := by
  constructor
  · intro ha hb hc hd
    exact Int.floor_le_floor
      (max_le_max (max_le_max (max_le_max ha hb) hc) hd)
  · intro hlt
    rw [buildIdOf, buildIdOf] at hlt
    have hmax : max (max (max a b) c) d < max (max (max a' b') c') d' := by
      by_contra hle
      push_neg at hle
      exact absurd (Int.floor_le_floor hle) (by omega)
    have ha : a ≤ max (max (max a b) c) d :=
      le_trans (le_max_left a b) (le_trans (le_max_left _ c) (le_max_left _ d))
    have hb : b ≤ max (max (max a b) c) d :=
      le_trans (le_max_right a b) (le_trans (le_max_left _ c) (le_max_left _ d))
    have hc : c ≤ max (max (max a b) c) d :=
      le_trans (le_max_right _ c) (le_max_left _ d)
    have hd : d ≤ max (max (max a b) c) d := le_max_right _ d
    rcases lt_max_iff.mp hmax with h3 | h4
    · rcases lt_max_iff.mp h3 with h2 | hcc
      · rcases lt_max_iff.mp h2 with haa | hbb
        · exact Or.inl (lt_of_le_of_lt ha haa)
        · exact Or.inr (Or.inl (lt_of_le_of_lt hb hbb))
      · exact Or.inr (Or.inr (Or.inl (lt_of_le_of_lt hc hcc)))
    · exact Or.inr (Or.inr (Or.inr (lt_of_le_of_lt hd h4)))

theorem buildId_monotone_inst :
    buildIdOf 1 5 7 3 ≤ buildIdOf 2 5 7 3 ∧
    ((2 : ℚ) < 12 ∨ (5 : ℚ) < 5 ∨ (7 : ℚ) < 7 ∨ (3 : ℚ) < 3) :=
  ⟨(buildId_monotone 1 5 7 3 2 5 7 3).1 (by norm_num) le_rfl le_rfl le_rfl,
    (buildId_monotone 2 5 7 3 12 5 7 3).2 (by decide)⟩

/-! ## C5: the `currently_used` detector -/

/-- Filesystem of the C5 counterexample: the active-bundle file and the
bundle's file have equal sizes and equal mtimes but different bytes. -/
def fsShallow : FS :=
  ⟨[("/r/kernel.efi", ⟨[0], 0⟩), ("/r/lin/b.efi", ⟨[1], 0⟩)], []⟩

/-- The owned bundle of the C5 counterexample. -/
def bShallow : KernelBundle :=
  ⟨"b.efi", 5, some ⟨"lin", "/r", "/k", "/i"⟩⟩

/-- C5 counterexample: `currently_used` answers `True` although the two
files' byte contents differ, because `filecmp.cmp` is called with its
default shallow mode and the stat signatures (size, mtime) agree.  This
refutes "true iff ... its byte content is identical to the bundle's
file". -/
theorem currently_used_not_content_based :
    currently_used fsShallow bShallow = .ok true ∧
    (statFile fsShallow "/r/kernel.efi").map (fun m => m.content) = some [0] ∧
    (statFile fsShallow "/r/lin/b.efi").map (fun m => m.content) = some [1] := by
  decide

/-- C5 (amended): for a bundle with an owning preset, when the fixed-name
active-bundle file `root/kernel.efi` does not exist `currently_used` is
`false` and no error is raised; when it exists (and the bundle's own file
exists too) `currently_used` is true iff the two files agree under
`filecmp.cmp`'s shallow comparison: equal stat signature (size and
mtime), or, failing that, identical byte content. -/
theorem currently_used_spec (fs : FS) (b : KernelBundle) (pd : PresetData)
    (hp : b.preset = some pd) :
    (isfile fs (pathJoin pd.path_root "kernel.efi") = false →
      currently_used fs b = .ok false) ∧
    (∀ m1 m2,
      statFile fs (pathJoin pd.path_root "kernel.efi") = some m1 →
      statFile fs (bundlePath pd b) = some m2 →
      (currently_used fs b = .ok true ↔
        ((m1.content.length = m2.content.length ∧ m1.mtime = m2.mtime) ∨
          m1.content = m2.content))) := by
  constructor
  · intro habs
    rw [currently_used, hp]
    simp [habs]
  · intro m1 m2 h1 h2
    have hfile : isfile fs (pathJoin pd.path_root "kernel.efi") = true := by
      rw [isfile, h1]
      rfl
    rw [currently_used, hp]
    simp only [hfile, if_true, filecmp_cmp, h1, h2]
    constructor
    · intro h
      have := Except.ok.inj h
      exact of_decide_eq_true this
    · intro h
      rw [decide_eq_true h]

theorem currently_used_spec_inst :
    currently_used ⟨[("/r/lin/b.efi", ⟨[1], 0⟩)], []⟩ bShallow = .ok false ∧
    (currently_used fsShallow bShallow = .ok true ↔
      (([0] : List Nat).length = ([1] : List Nat).length ∧ (0 : ℚ) = 0) ∨
        ([0] : List Nat) = [1]) :=
  ⟨(currently_used_spec ⟨[("/r/lin/b.efi", ⟨[1], 0⟩)], []⟩ bShallow
      ⟨"lin", "/r", "/k", "/i"⟩ rfl).1 (by decide),
    (currently_used_spec fsShallow bShallow ⟨"lin", "/r", "/k", "/i"⟩ rfl).2
      ⟨[0], 0⟩ ⟨[1], 0⟩ (by decide) (by decide)⟩

/-! ## C9: the preset back-reference -/

/-- Filesystem of the C9 counterexample: the active-bundle file exists
but the bundle's own file does not, so the shallow comparison inside
`currently_used` raises a `FileNotFoundError`. -/
def fsMissingBundle : FS :=
  ⟨[("/r/kernel.efi", ⟨[0], 0⟩)], []⟩

/-- C9 counterexample: a bundle owned by a preset (so the back-reference
is set) on which `currently_used` nevertheless raises — the active-bundle
file exists while the bundle's file is missing, and `filecmp.cmp` stats
the missing file.  This refutes the "currently_used ... defined
(non-erroring)" part of the claim. -/
theorem currently_used_raises_on_missing_file :
    (mkKernelPreset "lin" [mkKernelBundle "b.efi" 5] "/r" "/k" "/i").bundles =
      [⟨"b.efi", 5, some ⟨"lin", "/r", "/k", "/i"⟩⟩] ∧
    currently_used fsMissingBundle ⟨"b.efi", 5, some ⟨"lin", "/r", "/k", "/i"⟩⟩ =
      .error (.fileNotFound "/r/lin/b.efi") := by
  decide

/-- C9 (amended): constructing a `KernelPreset` sets every listed
bundle's back-reference to the new preset, so such a bundle's
`path_bundle` is defined and `currently_used` never raises the
missing-preset `RuntimeError` — it is defined whenever the active-bundle
file is absent (yielding `false`) or both compared files exist; it can
still raise `FileNotFoundError` when the active-bundle file exists but a
compared file is missing.  Conversely a freshly constructed
`KernelBundle` has no preset and both properties raise `RuntimeError`. -/
theorem preset_backref_spec :
    (∀ (name : String) (bundles : List KernelBundle)
        (root kern initrd : String) (b : KernelBundle),
      b ∈ (mkKernelPreset name bundles root kern initrd).bundles →
      b.preset = some ⟨name, root, kern, initrd⟩ ∧
      path_bundle b = .ok (bundlePath ⟨name, root, kern, initrd⟩ b) ∧
      (∀ fs : FS, isfile fs (pathJoin root "kernel.efi") = false →
        currently_used fs b = .ok false) ∧
      (∀ (fs : FS) (m1 m2 : FileMeta),
        statFile fs (pathJoin root "kernel.efi") = some m1 →
        statFile fs (bundlePath ⟨name, root, kern, initrd⟩ b) = some m2 →
        ∃ v, currently_used fs b = .ok v)) ∧
    (∀ (name : String) (build_id : ℤ),
      (mkKernelBundle name build_id).preset = none ∧
      path_bundle (mkKernelBundle name build_id) =
        .error (.runtimeError "Cannot determine path without parent preset") ∧
      (∀ fs : FS, currently_used fs (mkKernelBundle name build_id) =
        .error (.runtimeError "Cannot determine current usage without parent preset"))) := by
  constructor
  · intro name bundles root kern initrd b hb
    rw [mkKernelPreset] at hb
    simp only [List.mem_map] at hb
    obtain ⟨b0, _, hb0⟩ := hb
    have hp : b.preset = some ⟨name, root, kern, initrd⟩ := by
      rw [← hb0]
    have hname : b.name = b0.name := by rw [← hb0]
    refine ⟨hp, ?_, ?_, ?_⟩
    · rw [path_bundle, hp]
    · intro fs habs
      rw [currently_used, hp]
      simp [habs]
    · intro fs m1 m2 h1 h2
      have hfile : isfile fs (pathJoin root "kernel.efi") = true := by
        rw [isfile, h1]
        rfl
      rw [currently_used, hp]
      simp only [hfile, if_true, filecmp_cmp, h1, h2]
      exact ⟨_, rfl⟩
  · intro name build_id
    refine ⟨rfl, rfl, fun fs => rfl⟩

theorem preset_backref_spec_inst :
    (⟨"b.efi", 5, some ⟨"lin", "/r", "/k", "/i"⟩⟩ : KernelBundle).preset =
      some ⟨"lin", "/r", "/k", "/i"⟩ ∧
    path_bundle ⟨"b.efi", 5, some ⟨"lin", "/r", "/k", "/i"⟩⟩ = .ok "/r/lin/b.efi" ∧
    currently_used ⟨[], []⟩ ⟨"b.efi", 5, some ⟨"lin", "/r", "/k", "/i"⟩⟩ = .ok false := by
  have h := (preset_backref_spec.1 "lin" [mkKernelBundle "b.efi" 5] "/r" "/k" "/i"
    ⟨"b.efi", 5, some ⟨"lin", "/r", "/k", "/i"⟩⟩ (by decide))
  exact ⟨h.1, h.2.1, h.2.2.1 ⟨[], []⟩ (by decide)⟩

/-! ## Lemmas about the generator -/

theorem generateRest_ok_inv (w : World) (fs : FS) (p : KernelPreset)
    (sb : String) (gf : Bool) (cur : ℤ) (fsr : FS) (b : KernelBundle)
    (h : generateRest w fs p sb gf cur = (fsr, .ok (some b))) :
    b = mkKernelBundle ("kernel-" ++ toString cur ++ ".efi") cur := by
  rw [generateRest] at h
  repeat' split at h
  all_goals try simp_all [Prod.ext_iff]
  all_goals
    obtain ⟨-, hb⟩ := h
    split at hb <;> simp_all

theorem generate_ok_inv (w : World) (fs : FS) (p : KernelPreset)
    (sb : String) (gf : Bool) (fsr : FS) (b : KernelBundle)
    (h : generate_bundle_for_preset w fs p sb gf = (fsr, .ok (some b))) :
    computeBuildId fs p = .ok b.build_id := by
  rw [generate_bundle_for_preset] at h
  split at h
  · simp [Prod.ext_iff] at h
  · rename_i cur hcur
    split at h
    · split at h
      · simp [Prod.ext_iff] at h
      · have hb := generateRest_ok_inv w fs p sb gf cur fsr b h
        rw [hcur, hb]
        rfl
    · have hb := generateRest_ok_inv w fs p sb gf cur fsr b h
      rw [hcur, hb]
      rfl

theorem computeBuildId_ok_stats (fs : FS) (p : KernelPreset) (cur : ℤ)
    (h : computeBuildId fs p = .ok cur) :
    (statFile fs p.path_kernel).isSome ∧ (statFile fs UCODE_FILE).isSome ∧
    (statFile fs p.path_initramfs).isSome ∧ (statFile fs CMDLINE_FILE).isSome := by
  rw [computeBuildId] at h
  repeat' split at h
  all_goals simp_all

theorem last_build_id_append (p : KernelPreset) (b : KernelBundle) :
    ∃ m, last_build_id { p with bundles := p.bundles ++ [b] } = some m ∧
      b.build_id ≤ m := by
  rw [last_build_id]
  rcases hl : p.bundles.map (fun x => x.build_id) with _ | ⟨x, xs⟩
  · refine ⟨b.build_id, ?_, le_refl _⟩
    have : ({ p with bundles := p.bundles ++ [b] } : KernelPreset).bundles.map
        (fun x => x.build_id) = [b.build_id] := by
      simp only [List.map_append, hl]
      rfl
    rw [this]
    rfl
  · refine ⟨max (xs.foldl max x) b.build_id, ?_, le_max_right _ _⟩
    have : ({ p with bundles := p.bundles ++ [b] } : KernelPreset).bundles.map
        (fun x => x.build_id) = x :: (xs ++ [b.build_id]) := by
      simp only [List.map_append, hl]
      rfl
    rw [this]
    simp [List.foldl_append]

/-! ## C3: the staleness check and idempotence -/

/-- C3: `generate_bundle_for_preset` returns `None` — producing neither a
new bundle nor any filesystem change — whenever `last_build_id` exists
and the freshly computed identifier is not strictly greater; and after a
run that produced a bundle (appended to the preset as `main` does), a
second run on a filesystem whose four tracked input files are unchanged
returns `None` too. -/
theorem generate_skip_and_idempotent :
    (∀ (w : World) (fs : FS) (p : KernelPreset) (sb : String) (gf : Bool)
        (cur l : ℤ),
      computeBuildId fs p = .ok cur → last_build_id p = some l → ¬ l < cur →
      generate_bundle_for_preset w fs p sb gf = (fs, .ok none)) ∧
    (∀ (w w₂ : World) (fs fs₂ fs' : FS) (p : KernelPreset) (sb sb₂ : String)
        (gf gf₂ : Bool) (b : KernelBundle),
      generate_bundle_for_preset w fs p sb gf = (fs', .ok (some b)) →
      statFile fs₂ p.path_kernel = statFile fs p.path_kernel →
      statFile fs₂ UCODE_FILE = statFile fs UCODE_FILE →
      statFile fs₂ p.path_initramfs = statFile fs p.path_initramfs →
      statFile fs₂ CMDLINE_FILE = statFile fs CMDLINE_FILE →
      generate_bundle_for_preset w₂ fs₂
        { p with bundles := p.bundles ++ [{ b with preset := some (presetData p) }] }
        sb₂ gf₂ = (fs₂, .ok none)) := by
  constructor
  · intro w fs p sb gf cur l hcur hlast hnot
    rw [generate_bundle_for_preset, hcur, hlast]
    have hge : l ≥ cur := by omega
    simp [hge]
  · intro w w₂ fs fs₂ fs' p sb sb₂ gf gf₂ b h h1 h2 h3 h4
    have hcur : computeBuildId fs p = .ok b.build_id :=
      generate_ok_inv w fs p sb gf fs' b h
    have hcur₂ : computeBuildId fs₂
        { p with bundles := p.bundles ++ [{ b with preset := some (presetData p) }] } =
        .ok b.build_id := by
      rw [computeBuildId] at hcur ⊢
      simpa [h1, h2, h3, h4] using hcur
    obtain ⟨m, hm, hbm⟩ :=
      last_build_id_append p { b with preset := some (presetData p) }
    simp only at hbm
    rw [generate_bundle_for_preset, hcur₂, hm]
    have hge : m ≥ b.build_id := hbm
    simp [hge]

/-- The oracle, filesystem and preset used to instantiate the generator
theorems: four input files with integral mtimes, plain-image MIME answers
everywhere, no pre-existing bundles. -/
def wGen : World := ⟨fun _ => "application/octet-stream", 100, [7], [8], [9]⟩

/-- Concrete filesystem for the generator instances. -/
def fsGen : FS :=
  ⟨[("/k", ⟨[1], 10⟩), ("/boot/amd-ucode.img", ⟨[2], 5⟩), ("/init", ⟨[3], 7⟩),
    ("/boot/cmdline.txt", ⟨[4], 3⟩), ("/etc/os-release", ⟨[5], 1⟩)], []⟩

/-- Concrete preset (no bundles yet) for the generator instances. -/
def pGen : KernelPreset := ⟨"linux", [], "/root", "/k", "/init"⟩

/-- Concrete preset already holding a bundle as recent as the inputs. -/
def pGenStale : KernelPreset :=
  ⟨"linux", [⟨"kernel-10.efi", 10, some ⟨"linux", "/root", "/k", "/init"⟩⟩],
    "/root", "/k", "/init"⟩

theorem generate_skip_and_idempotent_inst :
    generate_bundle_for_preset wGen fsGen pGenStale "/sb" true =
      (fsGen, .ok none) ∧
    generate_bundle_for_preset wGen fsGen
      { pGen with bundles := pGen.bundles ++
        [{ mkKernelBundle "kernel-10.efi" 10 with preset := some (presetData pGen) }] }
      "/sb" true = (fsGen, .ok none) :=
  ⟨generate_skip_and_idempotent.1 wGen fsGen pGenStale "/sb" true 10 10
      (by decide) (by decide) (by omega),
    generate_skip_and_idempotent.2 wGen wGen fsGen fsGen
      (generate_bundle_for_preset wGen fsGen pGen "/sb" true).1 pGen "/sb" "/sb"
      true true (mkKernelBundle "kernel-10.efi" 10)
      (by decide) rfl rfl rfl rfl⟩

/-! ## C6: unsupported image formats abort generation -/

theorem isPrefixOf_refl_char (l : List Char) : l.isPrefixOf l = true := by
  induction l with
  | nil => rfl
  | cons x xs ih => simp [List.isPrefixOf, ih]

theorem hasSub_append_self (pre n : List Char) : hasSub n (pre ++ n) = true := by
  induction pre with
  | nil =>
    cases n with
    | nil => rfl
    | cons c t =>
      rw [List.nil_append, hasSub]
      simp [isPrefixOf_refl_char]
  | cons c rest ih =>
    rw [List.cons_append, hasSub]
    simp [ih]

/-- C6 (amended): on a skip-free run, when the MIME tool reports any type
other than `application/octet-stream` or `application/gzip` for the
microcode file, or for the preset's initramfs file, generation aborts
before the section-embedding step with the
`Exception("Unknown initramfs type: <type>")` error — whose message
names the detected type (but not the file) — and the filesystem is
returned unchanged, so no file appears at the preset's output path. -/
theorem unsupported_format_aborts (w : World) (fs : FS) (p : KernelPreset)
    (sb : String) (gf : Bool) (cur : ℤ)
    (hcur : computeBuildId fs p = .ok cur)
    (hfresh : ∀ l, last_build_id p = some l → l < cur)
    (hosrel : (statFile fs OSREL_FILE).isSome = true) :
    (∀ t : String, w.mime UCODE_FILE = t →
      t ≠ "application/octet-stream" → t ≠ "application/gzip" →
      generate_bundle_for_preset w fs p sb gf =
        (fs, .error (.unknownImageType ("Unknown initramfs type: " ++ t))) ∧
      hasSub t.data ("Unknown initramfs type: " ++ t).data = true) ∧
    (∀ t : String,
      (w.mime UCODE_FILE = "application/octet-stream" ∨
        w.mime UCODE_FILE = "application/gzip") →
      w.mime p.path_initramfs = t →
      t ≠ "application/octet-stream" → t ≠ "application/gzip" →
      generate_bundle_for_preset w fs p sb gf =
        (fs, .error (.unknownImageType ("Unknown initramfs type: " ++ t))) ∧
      hasSub t.data ("Unknown initramfs type: " ++ t).data = true) := by
  obtain ⟨hk, hu, hi, hc⟩ := computeBuildId_ok_stats fs p cur hcur
  obtain ⟨mo, hmo⟩ := Option.isSome_iff_exists.mp hosrel
  obtain ⟨mc, hmc⟩ := Option.isSome_iff_exists.mp hc
  obtain ⟨mu, hmu⟩ := Option.isSome_iff_exists.mp hu
  obtain ⟨mi, hmi⟩ := Option.isSome_iff_exists.mp hi
  have hsub : ∀ t : String,
      hasSub t.data ("Unknown initramfs type: " ++ t).data = true := by
    intro t
    rw [String.data_append]
    exact hasSub_append_self _ _
  have hrest : ∀ r : Except PyError Unit,
      checkImg w fs UCODE_FILE = r →
      (∀ e, r = .error e →
        generateRest w fs p sb gf cur = (fs, .error e)) ∧
      (r = .ok () →
        ∀ e, checkImg w fs p.path_initramfs = .error e →
        generateRest w fs p sb gf cur = (fs, .error e)) := by
    intro r hr
    constructor
    · intro e he
      rw [generateRest, hmc, hmo, hr, he]
    · intro hok e he
      rw [generateRest, hmc, hmo, hr, hok, he]
  have hskip : generate_bundle_for_preset w fs p sb gf =
      generateRest w fs p sb gf cur := by
    rw [generate_bundle_for_preset, hcur]
    rcases hl : last_build_id p with _ | l
    · rfl
    · have := hfresh l hl
      have hnot : ¬ l ≥ cur := by omega
      simp [hnot]
  constructor
  · intro t ht h1 h2
    have he : checkImg w fs UCODE_FILE =
        .error (.unknownImageType ("Unknown initramfs type: " ++ t)) := by
      rw [checkImg, ht, if_neg]
      simp [h1, h2]
    refine ⟨?_, hsub t⟩
    rw [hskip]
    exact ((hrest _ he).1 _ rfl)
  · intro t hgood ht h1 h2
    have hok : checkImg w fs UCODE_FILE = .ok () := by
      rw [checkImg, if_pos hgood, hmu]
    have he : checkImg w fs p.path_initramfs =
        .error (.unknownImageType ("Unknown initramfs type: " ++ t)) := by
      rw [checkImg, ht, if_neg]
      simp [h1, h2]
    refine ⟨?_, hsub t⟩
    rw [hskip]
    exact ((hrest _ hok).2 rfl _ he)

/-- World of the C6 counterexample: the MIME tool reports `text/plain`
for the microcode file. -/
def wBadMime : World :=
  ⟨fun pth => if pth = UCODE_FILE then "text/plain" else "application/octet-stream",
    100, [7], [8], [9]⟩

/-- C6 counterexample: the raised error is the bare
`Exception("Unknown initramfs type: text/plain")` — it carries the
detected type but does not name the offending file, refuting the "naming
the file and the detected type" part of the claim (the abort itself, with
no file at the output path, is confirmed). -/
theorem unsupported_format_message_no_file :
    generate_bundle_for_preset wBadMime fsGen pGen "/sb" true =
      (fsGen, .error (.unknownImageType "Unknown initramfs type: text/plain")) ∧
    hasSub UCODE_FILE.data ("Unknown initramfs type: text/plain").data = false ∧
    isfile fsGen "/root/linux/kernel-10.efi" = false := by
  decide

theorem unsupported_format_aborts_inst :
    generate_bundle_for_preset wBadMime fsGen pGen "/sb" true =
      (fsGen, .error (.unknownImageType ("Unknown initramfs type: " ++ "text/plain"))) ∧
    hasSub ("text/plain".data) ("Unknown initramfs type: " ++ "text/plain").data = true :=
  (unsupported_format_aborts wBadMime fsGen pGen "/sb" true 10 (by decide)
      (fun l hl => by
        rw [show last_build_id pGen = none from rfl] at hl
        exact Option.noConfusion hl)
      (by decide)).1 "text/plain" (by decide) (by decide) (by decide)

/-! ## C1: the retention manager -/

/-- One filesystem's content is contained in another's (deletion only
ever shrinks the state). -/
def FSle (a b : FS) : Prop :=
  (∀ e ∈ a.files, e ∈ b.files) ∧ (∀ d ∈ a.dirs, d ∈ b.dirs)

theorem FSle_refl (a : FS) : FSle a a :=
  ⟨fun _ he => he, fun _ hd => hd⟩

theorem FSle_trans {a b c : FS} (h1 : FSle a b) (h2 : FSle b c) : FSle a c :=
  ⟨fun e he => h2.1 e (h1.1 e he), fun d hd => h2.2 d (h1.2 d hd)⟩

theorem osRemove_ok (fs fsA : FS) (pth : String)
    (h : osRemove fs pth = .ok fsA) :
    fsA.files = fs.files.filter (fun e => e.1 ≠ pth) ∧ fsA.dirs = fs.dirs := by
  rw [osRemove] at h
  split at h
  · have := Except.ok.inj h
    rw [← this]
    exact ⟨rfl, rfl⟩
  · simp at h

theorem rmtree_ok (fs fs1 : FS) (d : String)
    (h : rmtree fs d = .ok fs1) :
    fs1.files = fs.files.filter (fun e => ¬ underDir d e.1) ∧
    fs1.dirs = fs.dirs.filter (fun x => ¬ underDir d x) := by
  rw [rmtree] at h
  split at h
  · have := Except.ok.inj h
    rw [← this]
    exact ⟨rfl, rfl⟩
  · simp at h

theorem underDir_self (d : String) : underDir d d = true := by
  rw [underDir]
  simp

theorem path_fallback_eq (fs' : FS) (b : KernelBundle) (pth : String)
    (h : path_bundle b = .ok pth) :
    path_fallback fs' b =
      .ok (if isdir fs' (pySplitextRoot pth) then some (pySplitextRoot pth) else none) := by
  rw [path_fallback, h]

theorem deleteOneBundle_spec (fs fs1 : FS) (b : KernelBundle)
    (h : deleteOneBundle fs b = .ok fs1) :
    FSle fs1 fs ∧
    ∀ pd, b.preset = some pd →
      (∀ e ∈ fs1.files, e.1 ≠ bundlePath pd b) ∧
      (isdir fs (pySplitextRoot (bundlePath pd b)) = true →
        pySplitextRoot (bundlePath pd b) ∉ fs1.dirs) := by
  rw [deleteOneBundle] at h
  split at h
  · simp at h
  · rename_i pth hpb
    split at h
    · simp at h
    · rename_i fsA hrm
      obtain ⟨hAf, hAd⟩ := osRemove_ok fs fsA pth hrm
      have hpt : ∀ pd, b.preset = some pd → pth = bundlePath pd b := by
        intro pd hpd
        rw [path_bundle, hpd] at hpb
        exact (Except.ok.inj hpb).symm
      have hAle : FSle fsA fs := by
        constructor
        · intro e he
          rw [hAf] at he
          exact (List.mem_filter.mp he).1
        · intro d hd
          rw [hAd] at hd
          exact hd
      have hAnot : ∀ e ∈ fsA.files, e.1 ≠ pth := by
        intro e he
        rw [hAf] at he
        have := (List.mem_filter.mp he).2
        simpa using this
      rw [path_fallback_eq fsA b pth hpb] at h
      by_cases hd : isdir fsA (pySplitextRoot pth) = true
      · rw [if_pos hd] at h
        simp only at h
        obtain ⟨h1f, h1d⟩ := rmtree_ok fsA fs1 (pySplitextRoot pth) h
        have h1le : FSle fs1 fsA := by
          constructor
          · intro e he
            rw [h1f] at he
            exact (List.mem_filter.mp he).1
          · intro x hx
            rw [h1d] at hx
            exact (List.mem_filter.mp hx).1
        refine ⟨FSle_trans h1le hAle, ?_⟩
        intro pd hpd
        rw [← hpt pd hpd]
        refine ⟨fun e he => hAnot e (h1le.1 e he), fun _ => ?_⟩
        intro hmem
        rw [h1d] at hmem
        have := (List.mem_filter.mp hmem).2
        rw [underDir_self] at this
        simp at this
      · rw [if_neg hd] at h
        simp only at h
        have hfs1 : fsA = fs1 := Except.ok.inj h
        rw [← hfs1]
        refine ⟨hAle, ?_⟩
        intro pd hpd
        rw [← hpt pd hpd]
        refine ⟨hAnot, fun hdirfs => ?_⟩
        intro hmem
        have : isdir fsA (pySplitextRoot pth) = true := by
          rw [isdir]
          exact List.elem_eq_true_of_mem hmem
        exact hd this

theorem foldlM_delete_spec (l : List KernelBundle) (fs fs' : FS)
    (h : l.foldlM deleteOneBundle fs = .ok fs') :
    FSle fs' fs ∧
    ∀ b ∈ l, ∀ pd, b.preset = some pd →
      (∀ e ∈ fs'.files, e.1 ≠ bundlePath pd b) ∧
      (isdir fs (pySplitextRoot (bundlePath pd b)) = true →
        pySplitextRoot (bundlePath pd b) ∉ fs'.dirs) := by
  induction l generalizing fs with
  | nil =>
    simp only [List.foldlM_nil] at h
    have : fs = fs' := Except.ok.inj h
    rw [this]
    exact ⟨FSle_refl fs', fun b hb => absurd hb (List.not_mem_nil b)⟩
  | cons b bs ih =>
    rw [List.foldlM_cons] at h
    rcases hb : deleteOneBundle fs b with e | fs1
    · rw [hb] at h
      have hcontra : (Except.error e : Except PyError FS) = .ok fs' := h
      exact Except.noConfusion hcontra
    · rw [hb] at h
      have hbind : bs.foldlM deleteOneBundle fs1 = .ok fs' := h
      obtain ⟨hle1, hdel1⟩ := deleteOneBundle_spec fs fs1 b hb
      obtain ⟨hle2, hdel2⟩ := ih fs1 hbind
      refine ⟨FSle_trans hle2 hle1, ?_⟩
      intro b' hb' pd hpd
      rcases List.mem_cons.mp hb' with hhd | htl
      · rw [hhd]
        rw [hhd] at hpd
        obtain ⟨hfile, hdir⟩ := hdel1 pd hpd
        refine ⟨fun e he => hfile e (hle2.1 e he), fun hdirfs => ?_⟩
        intro hmem
        exact hdir hdirfs (hle2.2 _ hmem)
      · obtain ⟨hfile, hdir⟩ := hdel2 b' htl pd hpd
        refine ⟨hfile, fun hdirfs => ?_⟩
        by_cases h1 : isdir fs1 (pySplitextRoot (bundlePath pd b')) = true
        · exact hdir h1
        · intro hmem
          apply h1
          rw [isdir]
          exact List.elem_eq_true_of_mem (hle2.2 _ hmem)

/-- The shared preset data of the retention examples. -/
def pdDel : PresetData := ⟨"lin", "/r", "/k", "/i"⟩

/-- Preset with one owned bundle, for the `keep = 0` counterexample. -/
def prK0 : KernelPreset := ⟨"lin", [⟨"a.efi", 1, some pdDel⟩], "/r", "/k", "/i"⟩

/-- Filesystem holding that bundle's file. -/
def fsK0 : FS := ⟨[("/r/lin/a.efi", ⟨[0], 0⟩)], []⟩

/-- C1 counterexample: with `keep = 0` and one bundle,
`delete_old_bundles` deletes nothing and retains the whole list — Python
`bundles[:-0]` is empty and `bundles[-0:]` is the whole list — so the
claimed `len = min(len_before, k)` fails and the bundle's file stays on
disk. -/
theorem delete_old_bundles_keep_zero :
    delete_old_bundles fsK0 prK0 0 = .ok (fsK0, prK0) ∧
    prK0.bundles.length ≠ min prK0.bundles.length 0 ∧
    isfile fsK0 "/r/lin/a.efi" = true := by
  decide

/-- C1 (amended): for `keep = k ≥ 1`, a successful `delete_old_bundles`
leaves `min(len_before, k)` bundles in memory — exactly the final `k` of
the list, which are the `k` with the highest build identifiers whenever
the list is sorted ascending by build identifier, as the program
maintains it — and every non-retained bundle's file is gone from disk,
along with its fallback directory when one existed.  (For `k = 0` the
operation deletes nothing, see the counterexample.) -/
theorem delete_old_bundles_retention (fs : FS) (pr : KernelPreset) (k : Nat)
    (fs' : FS) (pr' : KernelPreset) (hk : 1 ≤ k)
    (h : delete_old_bundles fs pr k = .ok (fs', pr')) :
    pr'.bundles.length = min pr.bundles.length k ∧
    pr'.bundles = pr.bundles.drop (pr.bundles.length - k) ∧
    (List.Pairwise (fun a b => a.build_id ≤ b.build_id) pr.bundles →
      ∀ a ∈ pr.bundles.take (pr.bundles.length - k), ∀ b ∈ pr'.bundles,
        a.build_id ≤ b.build_id) ∧
    (∀ b ∈ pr.bundles.take (pr.bundles.length - k), ∀ pd, b.preset = some pd →
      isfile fs' (bundlePath pd b) = false ∧
      (isdir fs (pySplitextRoot (bundlePath pd b)) = true →
        isdir fs' (pySplitextRoot (bundlePath pd b)) = false)) := by
  rw [delete_old_bundles] at h
  by_cases hlen : pr.bundles.length > k
  · rw [if_pos hlen] at h
    have hk0 : ¬ k = 0 := by omega
    have htake : pySliceDropLast pr.bundles k =
        pr.bundles.take (pr.bundles.length - k) := by
      rw [pySliceDropLast, if_neg hk0]
    have hdrop : pySliceTakeLast pr.bundles k =
        pr.bundles.drop (pr.bundles.length - k) := by
      rw [pySliceTakeLast, if_neg hk0]
    split at h
    · simp at h
    · rename_i fsd hfold
      have hinj := Except.ok.inj h
      have hfs : fsd = fs' := congrArg Prod.fst hinj
      have hpr : ({ pr with bundles := pySliceTakeLast pr.bundles k } : KernelPreset) =
          pr' := congrArg Prod.snd hinj
      have hbun : pr'.bundles = pr.bundles.drop (pr.bundles.length - k) := by
        rw [← hpr, hdrop]
      have hlendrop : pr'.bundles.length = min pr.bundles.length k := by
        rw [hbun, List.length_drop]
        omega
      refine ⟨hlendrop, hbun, ?_, ?_⟩
      · intro hpw a ha b hb
        rw [hbun] at hb
        have hsplitl := List.take_append_drop (pr.bundles.length - k) pr.bundles
        rw [← hsplitl] at hpw
        exact (List.pairwise_append.mp hpw).2.2 a ha b hb
      · rw [htake] at hfold
        rw [hfs] at hfold
        obtain ⟨-, hdel⟩ := foldlM_delete_spec _ fs fs' hfold
        intro b hb pd hpd
        obtain ⟨hfile, hdir⟩ := hdel b hb pd hpd
        constructor
        · rw [isfile, statFile]
          have : fs'.files.find? (fun e => e.1 = bundlePath pd b) = none := by
            rw [List.find?_eq_none]
            intro e he
            simpa using hfile e he
          rw [this]
          rfl
        · intro hdirfs
          have hnm := hdir hdirfs
          rw [isdir]
          by_cases hq : fs'.dirs.elem (pySplitextRoot (bundlePath pd b)) = true
          · exact absurd (List.mem_of_elem_eq_true hq) hnm
          · simpa using hq
  · rw [if_neg hlen] at h
    have hinj := Except.ok.inj h
    have hfs : fs = fs' := congrArg Prod.fst hinj
    have hpr : pr = pr' := congrArg Prod.snd hinj
    have hz : pr.bundles.length - k = 0 := by omega
    rw [← hpr, ← hfs, hz]
    refine ⟨by omega, by rw [List.drop_zero], ?_, ?_⟩
    · intro _ a ha
      rw [List.take_zero] at ha
      exact absurd ha (List.not_mem_nil a)
    · intro b hb
      rw [List.take_zero] at hb
      exact absurd hb (List.not_mem_nil b)

/-- Preset of the C1 witness: two owned bundles sorted by build id. -/
def prDel : KernelPreset :=
  ⟨"lin", [⟨"a.efi", 1, some pdDel⟩, ⟨"b.efi", 2, some pdDel⟩], "/r", "/k", "/i"⟩

/-- Filesystem of the C1 witness: both bundle files plus the older
bundle's fallback directory. -/
def fsDel : FS :=
  ⟨[("/r/lin/a.efi", ⟨[0], 0⟩), ("/r/lin/b.efi", ⟨[1], 0⟩)], ["/r/lin/a"]⟩

/-- State after pruning the witness preset to one bundle. -/
def fsDel2 : FS := ⟨[("/r/lin/b.efi", ⟨[1], 0⟩)], []⟩

/-- In-memory preset after pruning the witness preset to one bundle. -/
def prDel2 : KernelPreset := ⟨"lin", [⟨"b.efi", 2, some pdDel⟩], "/r", "/k", "/i"⟩

theorem delete_old_bundles_retention_inst :
    prDel2.bundles.length = min prDel.bundles.length 1 ∧
    isfile fsDel2 "/r/lin/a.efi" = false ∧
    isdir fsDel2 "/r/lin/a" = false := by
  have h := delete_old_bundles_retention fsDel prDel 1 fsDel2 prDel2
    (by decide) (by decide)
  have hbb := h.2.2.2 ⟨"a.efi", 1, some pdDel⟩ (by decide) pdDel rfl
  exact ⟨h.1, hbb.1, hbb.2 (by decide)⟩

/-! ## C2: failure isolation across presets in the bundle command -/

/-- A second preset, distinct from `pGen`, for the loop examples. -/
def pGen2 : KernelPreset := ⟨"linux2", [], "/root", "/k", "/init"⟩

/-- C2 counterexample: with the MIME tool reporting `text/plain` for the
microcode file, the first preset's generation raises, and the `bundle`
loop — which has no exception handling (`__init__.py` lines 35-44) —
stops: no preset is processed after the failing one, refuting the claimed
isolation. -/
theorem bundle_run_not_isolated :
    mainBundleStep wBadMime "/sb" fsGen pGen =
      .error (.unknownImageType "Unknown initramfs type: text/plain") ∧
    bundleCommandLoop wBadMime "/sb" fsGen [pGen, pGen2] =
      ([], some (.unknownImageType "Unknown initramfs type: text/plain")) ∧
    pGen2.name ∉ (bundleCommandLoop wBadMime "/sb" fsGen [pGen, pGen2]).1 := by
  decide

/-- C2 (amended): a failure raised while generating one preset's bundle
propagates out of the `bundle` command's loop: the run aborts with that
error and none of the remaining presets is processed. -/
theorem bundle_run_failure_aborts (w : World) (sb : String) (fs : FS)
    (p : KernelPreset) (rest : List KernelPreset) (e : PyError)
    (h : mainBundleStep w sb fs p = .error e) :
    bundleCommandLoop w sb fs (p :: rest) = ([], some e) := by
  rw [bundleCommandLoop, h]

theorem bundle_run_failure_aborts_inst :
    bundleCommandLoop wBadMime "/sb" fsGen (pGen :: [pGen2]) =
      ([], some (.unknownImageType "Unknown initramfs type: text/plain")) :=
  bundle_run_failure_aborts wBadMime "/sb" fsGen pGen [pGen2]
    (.unknownImageType "Unknown initramfs type: text/plain") (by decide)

end MKB
